import Mathlib

/-!
Shallow embedding of the fehler-go diagnostic rendering library.

The Go sources embedded here are `fehler.go` (positions, ranges, severities,
diagnostics, the three console style renderers and the snippet/underline
renderer) and `sarif.go` (the SARIF structured-report encoder).

Modelling conventions:
 - Go `int` is modelled as `Int` (no arithmetic in this library can overflow
   a 64-bit integer on the inputs the claims quantify over).
 - Go `*T` optional fields are modelled as `Option T`.
 - `strings.Repeat(s, n)` panics when `n < 0`; it is modelled as
   `stringsRepeat : String → Int → Option String` returning `none` exactly
   in the panic case.  Every function that can reach such a panic therefore
   returns `Option String`, with `none` meaning "the Go code aborts".
 - The console renderers print to stdout with `fmt.Printf`; each renderer is
   modelled as a function computing the exact string of bytes it writes.
 - The `ErrorReporter` struct only carries the `Sources` map; the map is
   passed explicitly (as an association list) to the functions that read it.
-/

/-! ### ANSI color constants (fehler.go lines 8-18) -/

def colorReset : String := "\x1b[0m"

def colorRed : String := "\x1b[31m"

def colorYellow : String := "\x1b[33m"

def colorBlue : String := "\x1b[34m"

def colorMagenta : String := "\x1b[35m"

def colorCyan : String := "\x1b[36m"

def colorWhite : String := "\x1b[37m"

def colorBold : String := "\x1b[1m"

def colorDim : String := "\x1b[2m"

/-! ### Position / SourceRange (fehler.go lines 28-78) -/

/-- Represents a position in source code with line and column information. -/
structure Position where
  Line : Int
  Column : Int
deriving DecidableEq, Repr

/-- Represents a range in source code with start and end positions. -/
structure SourceRange where
  File : String
  Start : Position
  End : Position
deriving DecidableEq, Repr

/-- Creates a single-character range at the specified position. -/
def NewSourceRangeSingle (file : String) (line column : Int) : SourceRange :=
  { File := file, Start := ⟨line, column⟩, End := ⟨line, column⟩ }

/-- Creates a range spanning from start to end positions. -/
def NewSourceRangeSpan (file : String)
    (startLine startColumn endLine endColumn : Int) : SourceRange :=
  { File := file, Start := ⟨startLine, startColumn⟩, End := ⟨endLine, endColumn⟩ }

/-- Returns true if this range spans multiple lines. -/
def SourceRange.IsMultiline (s : SourceRange) : Bool :=
  s.Start.Line != s.End.Line

/-- Returns true if this range is a single character. -/
def SourceRange.IsSingleChar (s : SourceRange) : Bool :=
  s.Start.Line == s.End.Line && s.Start.Column == s.End.Column

/-- Returns the length of the range on a single line (only valid for
single-line ranges). -/
def SourceRange.Length (s : SourceRange) : Int :=
  if s.IsMultiline then 0
  else if s.Start.Column ≤ s.End.Column then s.End.Column - s.Start.Column + 1
  else 1

/-! ### Severity (fehler.go lines 80-128) -/

/-- Severity levels for diagnostics, determining color and label
presentation. -/
inductive Severity where
  | Fatal
  | Error
  | Warning
  | Note
  | Todo
  | Unimplemented
deriving DecidableEq, Repr

/-- Returns the ANSI color code associated with this severity level.
The Go switch has an unreachable `default` branch since the enumeration is
closed; the inductive type makes it vanish. -/
def Severity.Color : Severity → String
  | .Fatal => colorRed
  | .Error => colorRed
  | .Warning => colorYellow
  | .Note => colorBlue
  | .Todo => colorMagenta
  | .Unimplemented => colorCyan

/-- Returns the human-readable label for this severity level. -/
def Severity.Label : Severity → String
  | .Fatal => "fatal"
  | .Error => "error"
  | .Warning => "warning"
  | .Note => "note"
  | .Todo => "todo"
  | .Unimplemented => "unimplemented"

/-! ### Diagnostic (fehler.go lines 130-184) -/

/-- A diagnostic message with optional source range and help text. -/
structure Diagnostic where
  Severity : Severity
  Message : String
  Range : Option SourceRange := none
  Help : Option String := none
  Code : Option String := none
  Url : Option String := none
deriving DecidableEq, Repr

/-! ### Helpers for Go's string primitives -/

/-- Concatenation of `n` copies of `s` (total, `Nat` count). -/
def repeatStr (s : String) : Nat → String
  | 0 => ""
  | n + 1 => s ++ repeatStr s n

/-- Go's `strings.Repeat(s, count)`: panics when `count` is negative,
modelled as `none`. -/
def stringsRepeat (s : String) (count : Int) : Option String :=
  if count < 0 then none else some (repeatStr s count.toNat)

/-- Go's `strings.Split(source, "\n")` specialised to the newline
separator: the list of chunks between newlines (always nonempty). -/
def splitLinesAux : List Char → List Char → List String
  | [], acc => [String.mk acc.reverse]
  | c :: cs, acc =>
      if c = '\n' then String.mk acc.reverse :: splitLinesAux cs []
      else splitLinesAux cs (c :: acc)

/-- Splits a source text into its lines, Go `strings.Split(s, "\n")`. -/
def splitLines (s : String) : List String :=
  splitLinesAux s.data []

/-! ### printUnderline (fehler.go lines 385-411) -/

/-- The marker portion of the underline for `lineNum` of range `r`: the
branch structure of `printUnderline` after the gutter has been printed.
`none` models the `strings.Repeat` panic. -/
def underlineBody (r : SourceRange) (lineNum : Int) : Option String :=
  if r.IsMultiline then
    if lineNum = r.Start.Line then
      (stringsRepeat " " (r.Start.Column - 1)).bind fun sp =>
        (stringsRepeat "~" (80 - r.Start.Column)).map fun t => sp ++ "~" ++ t
    else if lineNum = r.End.Line then
      stringsRepeat "~" r.End.Column
    else if r.Start.Line < lineNum ∧ lineNum < r.End.Line then
      stringsRepeat "~" 80
    else
      some ""
  else
    (stringsRepeat " " (r.Start.Column - 1)).bind fun sp =>
      if r.IsSingleChar then some (sp ++ "^")
      else (stringsRepeat "~" r.Length).map fun t => sp ++ t

/-- Prints the underline (carets or tildes) for a specific line in a range:
two spaces, the color, `lineNumWidth+1` spaces, two more spaces, the marker
body, then the color reset and the newline of `fmt.Println`. -/
def printUnderline (r : SourceRange) (lineNum lineNumWidth : Int)
    (color : String) : Option String :=
  (stringsRepeat " " (lineNumWidth + 1)).bind fun gutter =>
    (underlineBody r lineNum).map fun body =>
      "  " ++ color ++ gutter ++ "  " ++ body ++ colorReset ++ "\n"

/-! ### printSourceSnippet (fehler.go lines 336-383) -/

/-- The first line of the context window: `1` unless
`r.Start.Line > 2`, in which case `r.Start.Line - 2`. -/
def contextStartOf (r : SourceRange) : Int :=
  if r.Start.Line > 2 then r.Start.Line - 2 else 1

/-- The unclamped last line of the context window: `r.End.Line + 2` for a
multi-line range, `r.Start.Line + 2` otherwise. -/
def contextEndRaw (r : SourceRange) : Int :=
  if r.IsMultiline then r.End.Line + 2 else r.Start.Line + 2

/-- The last line of the context window, clamped to the number of lines. -/
def contextEndOf (r : SourceRange) (totalLines : Int) : Int :=
  if contextEndRaw r > totalLines then totalLines else contextEndRaw r

/-- The line numbers visited by the `for currentLine := contextStart;
currentLine <= contextEnd` loop of `printSourceSnippet`, in order. -/
def snippetLineNums (r : SourceRange) (totalLines : Int) : List Int :=
  (List.range (contextEndOf r totalLines - contextStartOf r + 1).toNat).map
    (fun i : Nat => contextStartOf r + (i : Int))

/-- The `fmt.Printf("%4d", n)` rendering: `n` left-padded with spaces to a
minimum width of 4. -/
def fmt4d (n : Int) : String :=
  repeatStr " " (4 - (toString n).length) ++ toString n

/-- One iteration of the snippet loop for a line inside the range:
`fmt.Printf("  %s%s%4d |%s %s\n", colorRed, colorBold, currentLine,
colorReset, line)`. -/
def errorLineRender (currentLine : Int) (line : String) : String :=
  "  " ++ colorRed ++ colorBold ++ fmt4d currentLine ++ " |" ++ colorReset
    ++ " " ++ line ++ "\n"

/-- One iteration of the snippet loop for a line outside the range:
`fmt.Printf("  %s%4d |%s %s\n", colorDim, currentLine, colorReset, line)`. -/
def contextLineRender (currentLine : Int) (line : String) : String :=
  "  " ++ colorDim ++ fmt4d currentLine ++ " |" ++ colorReset ++ " " ++ line
    ++ "\n"

/-- The output of one iteration of the snippet loop: the source line at
index `currentLine - 1` (in-bounds for every line number the loop visits),
rendered red and bold with its underline when the range touches it, dimmed
otherwise. -/
def renderSnippetLine (r : SourceRange) (color : String) (lines : List String)
    (currentLine : Int) : Option String :=
  (if 1 ≤ currentLine then lines.get? (currentLine - 1).toNat else none).bind
    fun line =>
      if r.Start.Line ≤ currentLine ∧ currentLine ≤ r.End.Line then
        (printUnderline r currentLine 4 color).map fun u =>
          errorLineRender currentLine line ++ u
      else
        some (contextLineRender currentLine line)

/-- Prints a source code snippet showing the context around a diagnostic
range; contributes nothing when the file is not in the source registry. -/
def printSourceSnippet (sources : List (String × String)) (r : SourceRange)
    (color : String) : Option String :=
  match sources.lookup r.File with
  | none => some ""
  | some source =>
      let lines := splitLines source
      (snippetLineNums r lines.length).foldlM
        (fun acc n => (renderSnippetLine r color lines n).map (acc ++ ·)) ""

/-! ### printFehler (fehler.go lines 238-282) -/

/-- The header line of the verbose style:
`<severity>[<code>]: <message>` (code segment omitted when absent), with the
severity's color and bold wrapping the label. -/
def fehlerHeader (d : Diagnostic) : String :=
  match d.Code with
  | some code =>
      d.Severity.Color ++ colorBold ++ d.Severity.Label ++ "[" ++ code ++ "]"
        ++ colorReset ++ ": " ++ d.Message ++ "\n"
  | none =>
      d.Severity.Color ++ colorBold ++ d.Severity.Label ++ colorReset ++ ": "
        ++ d.Message ++ "\n"

/-- The location line of the verbose style: `  <file>:<line>:<column>` in
cyan and bold. -/
def fehlerLocation (r : SourceRange) : String :=
  "  " ++ colorCyan ++ colorBold ++ r.File ++ ":" ++ toString r.Start.Line
    ++ ":" ++ toString r.Start.Column ++ colorReset ++ "\n"

/-- The help line of the verbose style, empty when no help is attached. -/
def fehlerHelp (d : Diagnostic) : String :=
  match d.Help with
  | some h => "  " ++ colorCyan ++ colorBold ++ "help" ++ colorReset ++ ": "
      ++ h ++ "\n"
  | none => ""

/-- The reference-URL line of the verbose style, empty when no url is
attached. -/
def fehlerUrl (d : Diagnostic) : String :=
  match d.Url with
  | some u => "  " ++ colorCyan ++ colorBold ++ "see" ++ colorReset ++ ": "
      ++ u ++ "\n"
  | none => ""

/-- The verbose (Fehler) style renderer: header, then location line and
snippet when a range is present, then help and url lines, then a blank
line. -/
def printFehler (sources : List (String × String)) (d : Diagnostic) :
    Option String :=
  (match d.Range with
   | some r =>
       (printSourceSnippet sources r d.Severity.Color).map
         (fun snip => fehlerLocation r ++ snip)
   | none => some "").map
    fun rangePart =>
      fehlerHeader d ++ rangePart ++ fehlerHelp d ++ fehlerUrl d ++ "\n"

/-! ### printGcc (fehler.go lines 284-311) -/

/-- The GCC-style renderer (compact style A). -/
def printGcc (d : Diagnostic) : String :=
  match d.Range with
  | some r =>
      colorBold ++ r.File ++ ":" ++ toString r.Start.Line ++ ":"
        ++ toString r.Start.Column ++ ": " ++ d.Severity.Color
        ++ d.Severity.Label ++ ": " ++ colorReset ++ colorBold ++ d.Message
        ++ colorReset ++ "\n"
  | none =>
      colorBold ++ d.Severity.Color ++ d.Severity.Label ++ ": " ++ colorReset
        ++ colorBold ++ d.Message ++ colorReset ++ "\n"

/-! ### printMsvc (fehler.go lines 313-334) -/

/-- The MSVC-style renderer (compact style B). -/
def printMsvc (d : Diagnostic) : String :=
  match d.Range with
  | some r =>
      let code := match d.Code with
        | some c => c
        | none => "unknown"
      r.File ++ "(" ++ toString r.Start.Line ++ ", "
        ++ toString r.Start.Column ++ "): " ++ d.Severity.Label ++ " " ++ code
        ++ ": " ++ d.Message ++ "\n"
  | none => d.Severity.Label ++ ": " ++ d.Message ++ "\n"

/-! ### SARIF encoder (sarif.go) -/

/-- SARIF message object. -/
structure SarifMessage where
  Text : String
deriving DecidableEq, Repr

/-- SARIF default configuration object. -/
structure SarifConfiguration where
  Level : String
deriving DecidableEq, Repr

/-- SARIF rule descriptor. -/
structure SarifRule where
  ID : String
  ShortDescription : SarifMessage
  DefaultConfiguration : Option SarifConfiguration
  HelpURI : String
deriving DecidableEq, Repr

/-- SARIF region: 1-based start/end line and column. -/
structure SarifRegion where
  StartLine : Int
  StartColumn : Int
  EndLine : Int
  EndColumn : Int
deriving DecidableEq, Repr

/-- SARIF artifact location. -/
structure SarifArtifactLocation where
  URI : String
deriving DecidableEq, Repr

/-- SARIF physical location. -/
structure SarifPhysicalLocation where
  ArtifactLocation : SarifArtifactLocation
  Region : SarifRegion
deriving DecidableEq, Repr

/-- SARIF location entry. -/
structure SarifLocation where
  PhysicalLocation : SarifPhysicalLocation
deriving DecidableEq, Repr

/-- SARIF result entry. -/
structure SarifResult where
  Message : SarifMessage
  Level : String
  RuleID : Option String
  Locations : List SarifLocation
  Kind : String
deriving DecidableEq, Repr

/-- SARIF driver block. -/
structure SarifDriver where
  Name : String
  Version : String
  InformationURI : String
  Rules : List SarifRule
deriving DecidableEq, Repr

/-- SARIF tool block. -/
structure SarifTool where
  Driver : SarifDriver
deriving DecidableEq, Repr

/-- SARIF run. -/
structure SarifRun where
  Tool : SarifTool
  Results : List SarifResult
deriving DecidableEq, Repr

/-- SARIF top-level report. -/
structure SarifReport where
  Version : String
  Schema : String
  Runs : List SarifRun
deriving DecidableEq, Repr

/-- Maps a severity to a SARIF level (sarif.go lines 73-86). -/
def sarifLevel : Severity → String
  | .Fatal => "error"
  | .Error => "error"
  | .Warning => "warning"
  | .Note => "note"
  | .Todo => "none"
  | .Unimplemented => "none"

/-- The rule descriptor built for `code` from diagnostic `d`
(sarif.go lines 99-113). -/
def mkSarifRule (code : String) (d : Diagnostic) : SarifRule :=
  { ID := code
    ShortDescription := { Text := d.Message }
    DefaultConfiguration := some { Level := sarifLevel d.Severity }
    HelpURI := d.Url.getD "" }

/-- One step of the `ruleMap` loop of `EmitSarif`: record a rule for the
diagnostic's code unless one was already recorded.  Go's `map` is modelled
as an association list; insertion order is first-seen order (Go's map
iteration order over the finished map is unspecified, and no claim depends
on it). -/
def addRule (acc : List (String × SarifRule)) (d : Diagnostic) :
    List (String × SarifRule) :=
  match d.Code with
  | some code =>
      if (acc.lookup code).isSome then acc
      else acc ++ [(code, mkSarifRule code d)]
  | none => acc

/-- The deduplicated rule map of `EmitSarif`, keyed by code. -/
def buildRuleList (ds : List Diagnostic) : List (String × SarifRule) :=
  ds.foldl addRule []

/-- The `rules` array of the emitted report. -/
def sarifRules (ds : List Diagnostic) : List SarifRule :=
  (buildRuleList ds).map Prod.snd

/-- The result entry built for one diagnostic (sarif.go lines 124-152). -/
def mkSarifResult (d : Diagnostic) : SarifResult :=
  { Message := { Text := d.Message }
    Level := sarifLevel d.Severity
    RuleID := d.Code
    Locations :=
      match d.Range with
      | some r =>
          [{ PhysicalLocation :=
              { ArtifactLocation := { URI := r.File }
                Region :=
                  { StartLine := r.Start.Line
                    StartColumn := r.Start.Column
                    EndLine := r.End.Line
                    EndColumn := r.End.Column } } }]
      | none => ([] : List SarifLocation)
    Kind := "fail" }

/-- The `results` array of the emitted report, one entry per diagnostic in
input order. -/
def sarifResults (ds : List Diagnostic) : List SarifResult :=
  ds.map mkSarifResult

/-- Emits all diagnostics in SARIF format: the structured document built by
`EmitSarif` before JSON encoding (sarif.go lines 90-168). -/
def EmitSarif (ds : List Diagnostic) : SarifReport :=
  { Version := "2.1.0"
    Schema := "https://json.schemastore.org/sarif-2.1.0.json"
    Runs :=
      [{ Tool :=
          { Driver :=
              { Name := "fehler"
                Version := "0.5.0"
                InformationURI := "https://github.com/ciathefed/fehler"
                Rules := sarifRules ds } }
         Results := sarifResults ds }] }

/-! ### Spec-side readings used to state claims -/

/-- Removes the ANSI escape sequences this library emits: an escape
character starts a code, which runs through the terminating `m`. -/
def stripAnsiAux : Bool → List Char → List Char
  | _, [] => []
  | true, c :: cs =>
      if c = 'm' then stripAnsiAux false cs else stripAnsiAux true cs
  | false, c :: cs =>
      if c = '\x1b' then stripAnsiAux true cs else c :: stripAnsiAux false cs

/-- The visible text of a rendered string, ANSI color codes removed. -/
def stripAnsi (s : String) : String :=
  String.mk (stripAnsiAux false s.data)

/-- Claim-side reading of "rendered in color c": the rendered snippet line
begins with the two-space indent followed by the color code `c`. -/
def lineRenderedInColor (s c : String) : Bool :=
  ("  " ++ c).data.isPrefixOf s.data

/-- Format stated by claim C8 for compact style B:
`<file>(<line>, <column>): <severity> <code-or-unknown>: <message>` when a
range is present, else `<severity>: <message>`. -/
def msvcClaimFormat (d : Diagnostic) : String :=
  match d.Range with
  | some r =>
      r.File ++ "(" ++ toString r.Start.Line ++ ", "
        ++ toString r.Start.Column ++ "): " ++ d.Severity.Label ++ " "
        ++ (d.Code.getD "unknown") ++ ": " ++ d.Message ++ "\n"
  | none => d.Severity.Label ++ ": " ++ d.Message ++ "\n"

/-- Claim-side reading for C9: the distinct non-empty codes carried by the
diagnostics, first occurrence kept. -/
def dedupKeepFirst (l : List String) : List String :=
  go l []
where
  /-- Keeps each string's first occurrence, tracking what has been seen. -/
  go : List String → List String → List String
    | [], _ => []
    | c :: cs, seen =>
        if seen.contains c then go cs seen else c :: go cs (c :: seen)

/-- The list of distinct non-empty codes of a diagnostic collection, as
claim C9 reads the rule-collection contract. -/
def claimDistinctNonEmptyCodes (ds : List Diagnostic) : List String :=
  dedupKeepFirst ((ds.filterMap (fun d => d.Code)).filter (fun c => c != ""))

/-- The worked example diagnostic of the spec: severity Error, message
"type mismatch...", range example.go:5:14-5:20, help, code E0001, url. -/
def exampleDiagnostic : Diagnostic :=
  { Severity := Severity.Error
    Message := "type mismatch: cannot add int and string"
    Range := some ⟨"example.go", ⟨5, 14⟩, ⟨5, 20⟩⟩
    Help := some "consider converting the string using strconv.Itoa or similar"
    Code := some "E0001"
    Url := some "https://docs.example.org/errors/E0001" }


/-! ### Helper lemmas -/

theorem stringsRepeat_of_nonneg {n : Int} (h : 0 ≤ n) (s : String) :
    stringsRepeat s n = some (repeatStr s n.toNat) := by
  simp [stringsRepeat, not_lt.mpr h]

theorem stringsRepeat_of_neg {n : Int} (h : n < 0) (s : String) :
    stringsRepeat s n = none := by
  simp [stringsRepeat, h]

theorem repeatStr_length (s : String) (n : Nat) :
    (repeatStr s n).length = n * s.length := by
  induction n with
  | zero => simp [repeatStr]
  | succ k ih =>
      simp only [repeatStr, String.length_append, ih]
      ring

theorem Length_nonneg (r : SourceRange) : 0 ≤ r.Length := by
  unfold SourceRange.Length
  split_ifs <;> omega

/-! ### Claim theorems -/

/-- C10: for every SourceRange, IsSingleChar holds iff start equals end,
IsMultiline holds iff the lines differ, the two predicates are never both
true, and for single-line non-single-character ranges with
end.column ≥ start.column the length is end.column − start.column + 1
(columns 5..15 give length 11). -/
theorem range_predicates_correct (r : SourceRange) :
    (r.IsSingleChar = true ↔ r.Start = r.End)
  ∧ (r.IsMultiline = true ↔ r.Start.Line ≠ r.End.Line)
  ∧ ¬(r.IsSingleChar = true ∧ r.IsMultiline = true)
  ∧ (r.IsMultiline = false → r.IsSingleChar = false →
      r.Start.Column ≤ r.End.Column →
      r.Length = r.End.Column - r.Start.Column + 1)
  ∧ SourceRange.Length ⟨"f", ⟨1, 5⟩, ⟨1, 15⟩⟩ = 11 := by
  obtain ⟨f, ⟨sl, sc⟩, ⟨el, ec⟩⟩ := r
  refine ⟨?_, ?_, ?_, ?_, by decide⟩
  · simp [SourceRange.IsSingleChar, Position.mk.injEq]
  · simp [SourceRange.IsMultiline]
  · simp [SourceRange.IsSingleChar, SourceRange.IsMultiline]
    intro h _
    exact h
  · intro hm _ hle
    simp only [SourceRange.Length, hm, if_false, Bool.false_eq_true]
    simp [hle]

theorem range_predicates_correct_witness :
    SourceRange.Length ⟨"f", ⟨1, 5⟩, ⟨1, 15⟩⟩ = 15 - 5 + 1 :=
  (range_predicates_correct ⟨"f", ⟨1, 5⟩, ⟨1, 15⟩⟩).2.2.2.1
    (by decide) (by decide) (by decide)

/-- C8: compact style B produces `<file>(<line>, <column>): <severity>
<code-or-unknown>: <message>` when a range is present (the code segment
always appears, with placeholder "unknown" when the diagnostic carries no
code), and `<severity>: <message>` with no code segment otherwise; on the
spec's example diagnostic the output is the exact MSVC line. -/
theorem msvc_format_correct (d : Diagnostic) :
    printMsvc d = msvcClaimFormat d
  ∧ printMsvc exampleDiagnostic
      = "example.go(5, 14): error E0001: type mismatch: cannot add int and string\n" := by
  refine ⟨?_, by decide⟩
  obtain ⟨sev, msg, rng, hlp, cd, url⟩ := d
  cases rng <;> cases cd <;> rfl

theorem underlineBody_isSome (r : SourceRange) (lineNum : Int)
    (h2 : 1 ≤ r.Start.Column) (h4 : 1 ≤ r.End.Column) :
    (underlineBody r lineNum).isSome = true
      ↔ ¬(r.IsMultiline = true ∧ lineNum = r.Start.Line
          ∧ 80 < r.Start.Column) := by
  by_cases hml : r.IsMultiline = true
  · by_cases hstart : lineNum = r.Start.Line
    · rw [underlineBody, if_pos hml, if_pos hstart]
      rcases le_or_lt r.Start.Column 80 with hc | hc
      · rw [stringsRepeat_of_nonneg (show (0:Int) ≤ r.Start.Column - 1 by omega),
          stringsRepeat_of_nonneg (show (0:Int) ≤ 80 - r.Start.Column by omega)]
        simp [hml, hstart]
        omega
      · rw [stringsRepeat_of_nonneg (show (0:Int) ≤ r.Start.Column - 1 by omega),
          stringsRepeat_of_neg (show 80 - r.Start.Column < 0 by omega)]
        simp [hml, hstart]
        omega
    · have hrhs : ¬(r.IsMultiline = true ∧ lineNum = r.Start.Line
          ∧ 80 < r.Start.Column) := fun h => hstart h.2.1
      rw [underlineBody, if_pos hml, if_neg hstart]
      by_cases hend : lineNum = r.End.Line
      · rw [if_pos hend,
          stringsRepeat_of_nonneg (show (0:Int) ≤ r.End.Column by omega)]
        simp [hrhs]
      · rw [if_neg hend]
        by_cases hmid : r.Start.Line < lineNum ∧ lineNum < r.End.Line
        · rw [if_pos hmid,
            stringsRepeat_of_nonneg (show (0:Int) ≤ 80 by norm_num)]
          simp [hrhs]
        · rw [if_neg hmid]
          simp [hrhs]
  · have hrhs : ¬(r.IsMultiline = true ∧ lineNum = r.Start.Line
        ∧ 80 < r.Start.Column) := fun h => hml h.1
    rw [underlineBody, if_neg hml,
      stringsRepeat_of_nonneg (show (0:Int) ≤ r.Start.Column - 1 by omega),
      Option.some_bind]
    by_cases hsc : r.IsSingleChar = true
    · rw [if_pos hsc]
      simp [hrhs]
    · rw [if_neg hsc, stringsRepeat_of_nonneg (Length_nonneg r)]
      simp [hrhs]

/-- C2: over the documented domain (all coordinates at least 1) the
underline routine aborts exactly when it draws the first line of a
multi-line range whose start column exceeds 80 (there `80 - start.column`
is negative and `strings.Repeat` panics); it is total under the extra
precondition `start.column ≤ 80`, and the concrete multi-line range
1:81-2:1 does abort. -/
theorem underline_totality (r : SourceRange) (lineNum : Int) (color : String)
    (h1 : 1 ≤ r.Start.Line) (h2 : 1 ≤ r.Start.Column)
    (h3 : 1 ≤ r.End.Line) (h4 : 1 ≤ r.End.Column) :
    ((printUnderline r lineNum 4 color).isSome = true
      ↔ ¬(r.IsMultiline = true ∧ lineNum = r.Start.Line
          ∧ 80 < r.Start.Column))
  ∧ printUnderline ⟨"f", ⟨1, 81⟩, ⟨2, 1⟩⟩ 1 4 colorRed = none := by
  refine ⟨?_, by decide⟩
  rw [printUnderline,
    show stringsRepeat " " (4 + 1) = some (repeatStr " " 5) from by decide,
    Option.some_bind, Option.isSome_map']
  exact underlineBody_isSome r lineNum h2 h4

theorem underline_totality_witness :
    (printUnderline ⟨"f", ⟨1, 1⟩, ⟨3, 5⟩⟩ 1 4 colorRed).isSome = true :=
  ((underline_totality ⟨"f", ⟨1, 1⟩, ⟨3, 5⟩⟩ 1 colorRed
      (by decide) (by decide) (by decide) (by decide)).1).mpr (by decide)

/-- C3: for a multi-line range with 1 ≤ start.column ≤ 80 and
end.column ≥ 1, the underline marker under the first line is
start.column − 1 spaces followed by 81 − start.column tildes (columns
start.column through 80), the marker under a strictly interior line is 80
tildes, and the marker under the last line is end.column tildes from
column 1. -/
theorem multiline_underline_shape (r : SourceRange) (lineNum : Int)
    (hm : r.IsMultiline = true) (h2 : 1 ≤ r.Start.Column)
    (h80 : r.Start.Column ≤ 80) (h4 : 1 ≤ r.End.Column) :
    underlineBody r r.Start.Line
      = some (repeatStr " " (r.Start.Column - 1).toNat
              ++ repeatStr "~" (81 - r.Start.Column).toNat)
  ∧ (r.Start.Line < lineNum → lineNum < r.End.Line →
      underlineBody r lineNum = some (repeatStr "~" 80))
  ∧ underlineBody r r.End.Line = some (repeatStr "~" r.End.Column.toNat) := by
  have hne : r.Start.Line ≠ r.End.Line := by
    simpa [SourceRange.IsMultiline] using hm
  refine ⟨?_, ?_, ?_⟩
  · rw [underlineBody, if_pos hm, if_pos rfl,
      stringsRepeat_of_nonneg (show (0:Int) ≤ r.Start.Column - 1 by omega),
      stringsRepeat_of_nonneg (show (0:Int) ≤ 80 - r.Start.Column by omega)]
    simp only [Option.some_bind, Option.map_some']
    have hsplit : (81 - r.Start.Column).toNat = (80 - r.Start.Column).toNat + 1 := by
      omega
    rw [hsplit]
    simp [repeatStr, String.append_assoc]
  · intro ha hb
    have hx1 : ¬(lineNum = r.Start.Line) := by omega
    have hx2 : ¬(lineNum = r.End.Line) := by omega
    rw [underlineBody, if_pos hm, if_neg hx1, if_neg hx2, if_pos ⟨ha, hb⟩,
      stringsRepeat_of_nonneg (show (0:Int) ≤ 80 by norm_num)]
    rfl
  · have hx1 : ¬(r.End.Line = r.Start.Line) := fun h => hne h.symm
    rw [underlineBody, if_pos hm, if_neg hx1, if_pos rfl,
      stringsRepeat_of_nonneg (show (0:Int) ≤ r.End.Column by omega)]

theorem multiline_underline_shape_witness :
    underlineBody ⟨"f", ⟨1, 3⟩, ⟨3, 5⟩⟩ 1
      = some (repeatStr " " 2 ++ repeatStr "~" 78)
  ∧ underlineBody ⟨"f", ⟨1, 3⟩, ⟨3, 5⟩⟩ 2 = some (repeatStr "~" 80)
  ∧ underlineBody ⟨"f", ⟨1, 3⟩, ⟨3, 5⟩⟩ 3 = some (repeatStr "~" 5) := by
  have h := multiline_underline_shape ⟨"f", ⟨1, 3⟩, ⟨3, 5⟩⟩ 2
    (by decide) (by decide) (by decide) (by decide)
  exact ⟨h.1, h.2.1 (by decide) (by decide), h.2.2⟩

/-- C4: for a single-line range with start.column ≥ 1 the underline marker
is start.column − 1 spaces followed by one caret when the range is a single
character, and by `Length()` tildes otherwise; for the range 5:14-5:20 that
is 13 spaces then 7 tildes (tildes starting at column 14). -/
theorem single_line_underline_shape (r : SourceRange) (lineNum : Int)
    (hm : r.IsMultiline = false) (h2 : 1 ≤ r.Start.Column) :
    (r.IsSingleChar = true →
        underlineBody r lineNum
          = some (repeatStr " " (r.Start.Column - 1).toNat ++ "^"))
  ∧ (r.IsSingleChar = false →
        underlineBody r lineNum
          = some (repeatStr " " (r.Start.Column - 1).toNat
                  ++ repeatStr "~" r.Length.toNat))
  ∧ underlineBody ⟨"example.go", ⟨5, 14⟩, ⟨5, 20⟩⟩ 5
      = some (repeatStr " " 13 ++ repeatStr "~" 7) := by
  refine ⟨?_, ?_, by decide⟩
  · intro hsc
    rw [underlineBody]
    simp only [hm, Bool.false_eq_true, if_false]
    rw [stringsRepeat_of_nonneg (by omega)]
    simp [hsc]
  · intro hsc
    rw [underlineBody]
    simp only [hm, Bool.false_eq_true, if_false]
    rw [stringsRepeat_of_nonneg (by omega)]
    simp only [Option.some_bind, hsc, Bool.false_eq_true, if_false]
    rw [stringsRepeat_of_nonneg (Length_nonneg r)]
    rfl

theorem single_line_underline_shape_witness :
    underlineBody ⟨"example.go", ⟨5, 14⟩, ⟨5, 20⟩⟩ 7
      = some (repeatStr " " 13 ++ repeatStr "~" 7) :=
  (single_line_underline_shape ⟨"example.go", ⟨5, 14⟩, ⟨5, 20⟩⟩ 7
      (by decide) (by decide)).2.1 (by decide)

/-- C5: the context window starts at max(1, start.line − 2) and ends at
min(total_lines, end.line + 2) — with start.line + 2 for a single-line
range, whose end line equals its start line — every produced line number
lies between 1 and total_lines, and the three worked examples (line 5 of a
10-line file gives 3..7, line 1 gives 1..3, a range ending at line 9 of a
10-line file is clamped to 10) hold. -/
theorem context_window_correct (r : SourceRange) (total : Int) :
    contextStartOf r = max 1 (r.Start.Line - 2)
  ∧ contextEndOf r total
      = min total ((if r.IsMultiline then r.End.Line else r.Start.Line) + 2)
  ∧ (∀ n ∈ snippetLineNums r total, 1 ≤ n ∧ n ≤ total)
  ∧ snippetLineNums ⟨"f", ⟨5, 1⟩, ⟨5, 1⟩⟩ 10 = [3, 4, 5, 6, 7]
  ∧ snippetLineNums ⟨"f", ⟨1, 1⟩, ⟨1, 1⟩⟩ 10 = [1, 2, 3]
  ∧ snippetLineNums ⟨"f", ⟨7, 1⟩, ⟨9, 1⟩⟩ 10 = [5, 6, 7, 8, 9, 10] := by
  have hstart : contextStartOf r = max 1 (r.Start.Line - 2) := by
    unfold contextStartOf
    split_ifs <;> omega
  have hend : contextEndOf r total
      = min total ((if r.IsMultiline then r.End.Line else r.Start.Line) + 2) := by
    unfold contextEndOf contextEndRaw
    split_ifs <;> omega
  refine ⟨hstart, hend, ?_, by decide, by decide, by decide⟩
  intro n hn
  simp only [snippetLineNums, List.mem_map, List.mem_range] at hn
  obtain ⟨i, hi, rfl⟩ := hn
  have hs1 : 1 ≤ contextStartOf r := by
    unfold contextStartOf
    split_ifs <;> omega
  have he1 : contextEndOf r total ≤ total := by
    unfold contextEndOf contextEndRaw
    split_ifs <;> omega
  exact ⟨by omega, by omega⟩

theorem context_window_correct_witness :
    (3 : Int) ∈ snippetLineNums ⟨"f", ⟨5, 1⟩, ⟨5, 1⟩⟩ 10
  ∧ (1 ≤ (3 : Int) ∧ (3 : Int) ≤ 10) :=
  ⟨by decide, (context_window_correct ⟨"f", ⟨5, 1⟩, ⟨5, 1⟩⟩ 10).2.2.1 3 (by decide)⟩

/-- C6: when the range's file is absent from the source registry the
snippet renderer contributes nothing (an empty string, not an error), and
the verbose renderer still emits the header, location line, help line, url
line and trailing blank line unchanged. -/
theorem missing_source_no_snippet (sources : List (String × String))
    (d : Diagnostic) (r : SourceRange)
    (hr : d.Range = some r) (hmiss : sources.lookup r.File = none) :
    printSourceSnippet sources r d.Severity.Color = some ""
  ∧ printFehler sources d
      = some (fehlerHeader d ++ fehlerLocation r ++ fehlerHelp d
              ++ fehlerUrl d ++ "\n") := by
  have h1 : printSourceSnippet sources r d.Severity.Color = some "" := by
    unfold printSourceSnippet
    rw [hmiss]
  refine ⟨h1, ?_⟩
  unfold printFehler
  rw [hr]
  dsimp only
  rw [h1]
  simp [String.append_empty]

theorem missing_source_no_snippet_witness :
    printFehler [] ⟨Severity.Error, "m", some ⟨"g", ⟨1, 1⟩, ⟨1, 1⟩⟩,
        none, none, none⟩
      = some (fehlerHeader ⟨Severity.Error, "m", some ⟨"g", ⟨1, 1⟩, ⟨1, 1⟩⟩,
                none, none, none⟩
              ++ fehlerLocation ⟨"g", ⟨1, 1⟩, ⟨1, 1⟩⟩
              ++ fehlerHelp ⟨Severity.Error, "m", some ⟨"g", ⟨1, 1⟩, ⟨1, 1⟩⟩,
                  none, none, none⟩
              ++ fehlerUrl ⟨Severity.Error, "m", some ⟨"g", ⟨1, 1⟩, ⟨1, 1⟩⟩,
                  none, none, none⟩
              ++ "\n") :=
  (missing_source_no_snippet [] _ ⟨"g", ⟨1, 1⟩, ⟨1, 1⟩⟩ rfl rfl).2

/-- C7: compact style A renders the spec's example diagnostic as the single
line `example.go:5:14: error: type mismatch: cannot add int and string`
(shown both as the exact byte string with its ANSI wrapping and as the
visible text once ANSI codes are stripped); for every diagnostic without a
range it renders `<severity>: <message>` (ANSI-wrapped), and the output
never depends on the help, code or url fields — so no snippet, help, url or
code appears. -/
theorem gcc_format_correct (d : Diagnostic) :
    stripAnsi (printGcc exampleDiagnostic)
      = "example.go:5:14: error: type mismatch: cannot add int and string\n"
  ∧ printGcc exampleDiagnostic
      = colorBold ++ "example.go" ++ ":" ++ "5" ++ ":" ++ "14" ++ ": "
        ++ colorRed ++ "error" ++ ": " ++ colorReset ++ colorBold
        ++ "type mismatch: cannot add int and string" ++ colorReset ++ "\n"
  ∧ (d.Range = none →
      printGcc d
        = colorBold ++ d.Severity.Color ++ d.Severity.Label ++ ": "
          ++ colorReset ++ colorBold ++ d.Message ++ colorReset ++ "\n")
  ∧ printGcc { d with Help := none, Code := none, Url := none } = printGcc d := by
  refine ⟨by decide, by decide, ?_, ?_⟩
  · intro h
    simp [printGcc, h]
  · obtain ⟨sev, msg, rng, hlp, cd, url⟩ := d
    cases rng <;> rfl

theorem gcc_format_correct_witness :
    printGcc ⟨Severity.Note, "n", none, none, none, none⟩
      = colorBold ++ colorBlue ++ "note" ++ ": " ++ colorReset ++ colorBold
        ++ "n" ++ colorReset ++ "\n" :=
  (gcc_format_correct ⟨Severity.Note, "n", none, none, none, none⟩).2.2.1 rfl

theorem printUnderline_shape (r : SourceRange) (lineNum : Int) (color : String)
    (u : String) (h : printUnderline r lineNum 4 color = some u) :
    ∃ body, underlineBody r lineNum = some body
      ∧ u = "  " ++ color ++ repeatStr " " 5 ++ "  " ++ body
            ++ colorReset ++ "\n" := by
  rw [printUnderline,
    show stringsRepeat " " (4 + 1) = some (repeatStr " " 5) from by decide,
    Option.some_bind] at h
  cases hb : underlineBody r lineNum with
  | none =>
      rw [hb] at h
      simp at h
  | some body =>
      rw [hb] at h
      simp only [Option.map_some', Option.some.injEq] at h
      exact ⟨body, rfl, h.symm⟩

/-- C1 (amended): in the verbose snippet, every source line touched by the
range is rendered red and bold — regardless of the diagnostic's severity —
while the underline drawn beneath it starts with the severity's color;
lines outside the range are rendered dimmed; the 1-based line number is
left-padded to width 4 whenever its decimal form has at most 4
characters. -/
theorem snippet_line_styles (r : SourceRange) (color : String)
    (lines : List String) (n : Int) (line : String)
    (hn : 1 ≤ n) (hline : lines.get? (n - 1).toNat = some line) :
    ((r.Start.Line ≤ n ∧ n ≤ r.End.Line) → ∀ u,
        printUnderline r n 4 color = some u →
        renderSnippetLine r color lines n
            = some (errorLineRender n line ++ u)
          ∧ ∃ body, u = "  " ++ color ++ repeatStr " " 5 ++ "  " ++ body
              ++ colorReset ++ "\n")
  ∧ (¬(r.Start.Line ≤ n ∧ n ≤ r.End.Line) →
        renderSnippetLine r color lines n = some (contextLineRender n line))
  ∧ errorLineRender n line
      = "  " ++ colorRed ++ colorBold ++ fmt4d n ++ " |" ++ colorReset
        ++ " " ++ line ++ "\n"
  ∧ contextLineRender n line
      = "  " ++ colorDim ++ fmt4d n ++ " |" ++ colorReset ++ " " ++ line
        ++ "\n"
  ∧ ((toString n).length ≤ 4 → (fmt4d n).length = 4) := by
  refine ⟨?_, ?_, rfl, rfl, ?_⟩
  · intro htouch u hu
    constructor
    · rw [renderSnippetLine, if_pos hn, hline, Option.some_bind, if_pos htouch,
        hu, Option.map_some']
    · obtain ⟨body, _, hb⟩ := printUnderline_shape r n color u hu
      exact ⟨body, hb⟩
  · intro htouch
    rw [renderSnippetLine, if_pos hn, hline, Option.some_bind, if_neg htouch]
  · intro hlen
    rw [fmt4d, String.length_append, repeatStr_length,
      show (" " : String).length = 1 from rfl]
    omega

theorem snippet_line_styles_witness :
    renderSnippetLine ⟨"f", ⟨1, 1⟩, ⟨1, 2⟩⟩ colorYellow ["abc", "xyz"] 2
      = some (contextLineRender 2 "xyz") :=
  (snippet_line_styles ⟨"f", ⟨1, 1⟩, ⟨1, 2⟩⟩ colorYellow ["abc", "xyz"] 2
      "xyz" (by decide) (by decide)).2.1 (by decide)

/-- C1 (counterexample): with a Warning diagnostic (severity color yellow)
and a registered one-line file, the touched source line is rendered with
the red color code, not the severity's yellow: the claim that touched lines
are rendered in the severity's color fails. -/
theorem snippet_severity_color_counterexample :
    printSourceSnippet [("f", "abc")] ⟨"f", ⟨1, 1⟩, ⟨1, 2⟩⟩
        Severity.Warning.Color
      = some (("  " ++ colorRed ++ colorBold ++ "   1 |" ++ colorReset
                ++ " abc\n")
              ++ ("  " ++ colorYellow ++ "     " ++ "  " ++ "~~"
                ++ colorReset ++ "\n"))
  ∧ lineRenderedInColor
      ("  " ++ colorRed ++ colorBold ++ "   1 |" ++ colorReset ++ " abc\n")
      Severity.Warning.Color = false
  ∧ lineRenderedInColor
      ("  " ++ colorRed ++ colorBold ++ "   1 |" ++ colorReset ++ " abc\n")
      colorRed = true := by
  refine ⟨by decide, by decide, by decide⟩

theorem lookup_append {β : Type} (l₁ l₂ : List (String × β)) (a : String) :
    (l₁ ++ l₂).lookup a
      = match l₁.lookup a with
        | some b => some b
        | none => l₂.lookup a := by
  induction l₁ with
  | nil => simp [List.lookup]
  | cons p t ih =>
      obtain ⟨k, v⟩ := p
      simp only [List.cons_append, List.lookup]
      cases h : (a == k) <;> simp [h, ih]

theorem lookup_eq_none_iff {β : Type} (l : List (String × β)) (a : String) :
    l.lookup a = none ↔ ∀ p ∈ l, p.1 ≠ a := by
  induction l with
  | nil => simp [List.lookup]
  | cons p t ih =>
      obtain ⟨k, v⟩ := p
      by_cases h : a = k
      · subst h
        simp [List.lookup]
      · simp [List.lookup, beq_eq_false_iff_ne.mpr h, ih, Ne.symm h]

theorem mem_of_lookup_eq_some {β : Type} {l : List (String × β)} {a : String}
    {b : β} (h : l.lookup a = some b) : (a, b) ∈ l := by
  induction l with
  | nil => simp [List.lookup] at h
  | cons p t ih =>
      obtain ⟨k, v⟩ := p
      by_cases hk : a = k
      · subst hk
        simp only [List.lookup, beq_self_eq_true] at h
        cases h
        exact List.mem_cons_self _ _
      · simp only [List.lookup, beq_eq_false_iff_ne.mpr hk] at h
        exact List.mem_cons_of_mem _ (ih h)

theorem foldl_addRule_lookup (ds : List Diagnostic)
    (acc : List (String × SarifRule)) (c : String) :
    (ds.foldl addRule acc).lookup c
      = match acc.lookup c with
        | some v => some v
        | none => (ds.find? (fun d => d.Code == some c)).map (mkSarifRule c) := by
  induction ds generalizing acc with
  | nil =>
      simp only [List.foldl_nil, List.find?_nil, Option.map_none']
      cases acc.lookup c <;> rfl
  | cons d t ih =>
      rw [List.foldl_cons, ih]
      cases hc : d.Code with
      | none =>
          have haddr : addRule acc d = acc := by simp [addRule, hc]
          have hpd : (fun x : Diagnostic => x.Code == some c) d = false := by
            simp [hc]
          have hfind : (d :: t).find? (fun x => x.Code == some c)
              = t.find? (fun x => x.Code == some c) := by
            simp only [List.find?, hpd]
          rw [haddr, hfind]
      | some code =>
          by_cases hck : code = c
          · subst hck
            cases hex : acc.lookup code with
            | some v =>
                have haddr : addRule acc d = acc := by simp [addRule, hc, hex]
                rw [haddr, hex]
            | none =>
                have haddr : addRule acc d
                    = acc ++ [(code, mkSarifRule code d)] := by
                  simp [addRule, hc, hex]
                have hsingle : [(code, mkSarifRule code d)].lookup code
                    = some (mkSarifRule code d) := by
                  simp [List.lookup]
                have hpd : (fun x : Diagnostic => x.Code == some code) d
                    = true := by
                  simp [hc]
                have hfind : (d :: t).find? (fun x => x.Code == some code)
                    = some d := by
                  simp only [List.find?, hpd]
                rw [haddr, lookup_append, hex, hsingle, hfind]
                rfl
          · have hsingle : [(code, mkSarifRule code d)].lookup c = none := by
              simp [List.lookup, beq_eq_false_iff_ne.mpr (Ne.symm hck)]
            have haddr : (addRule acc d).lookup c = acc.lookup c := by
              cases hex : acc.lookup code with
              | some v => simp [addRule, hc, hex]
              | none =>
                  rw [show addRule acc d = acc ++ [(code, mkSarifRule code d)]
                      from by simp [addRule, hc, hex],
                    lookup_append, hsingle]
                  cases acc.lookup c <;> rfl
            have hpd : (fun x : Diagnostic => x.Code == some c) d = false := by
              simp [hc, hck]
            have hfind : (d :: t).find? (fun x => x.Code == some c)
                = t.find? (fun x => x.Code == some c) := by
              simp only [List.find?, hpd]
            rw [haddr, hfind]

theorem buildRuleList_lookup (ds : List Diagnostic) (c : String) :
    (buildRuleList ds).lookup c
      = (ds.find? (fun d => d.Code == some c)).map (mkSarifRule c) := by
  rw [buildRuleList, foldl_addRule_lookup]
  rfl

theorem buildRuleList_id_eq_key (ds : List Diagnostic) :
    ∀ p ∈ buildRuleList ds, p.2.ID = p.1 := by
  suffices h : ∀ (ds : List Diagnostic) (acc : List (String × SarifRule)),
      (∀ p ∈ acc, p.2.ID = p.1) → ∀ p ∈ ds.foldl addRule acc, p.2.ID = p.1 by
    exact h ds [] (by simp)
  intro ds
  induction ds with
  | nil =>
      intro acc hacc
      simpa using hacc
  | cons d t ih =>
      intro acc hacc
      apply ih
      cases hc : d.Code with
      | none => simpa [addRule, hc] using hacc
      | some code =>
          cases hex : acc.lookup code with
          | some v => simpa [addRule, hc, hex] using hacc
          | none =>
              intro p hp
              rw [show addRule acc d = acc ++ [(code, mkSarifRule code d)]
                  from by simp [addRule, hc, hex]] at hp
              rcases List.mem_append.mp hp with h1 | h1
              · exact hacc p h1
              · simp only [List.mem_singleton] at h1
                subst h1
                rfl

theorem buildRuleList_keys_nodup (ds : List Diagnostic) :
    ((buildRuleList ds).map Prod.fst).Nodup := by
  suffices h : ∀ (ds : List Diagnostic) (acc : List (String × SarifRule)),
      (acc.map Prod.fst).Nodup → ((ds.foldl addRule acc).map Prod.fst).Nodup by
    exact h ds [] (by simp)
  intro ds
  induction ds with
  | nil =>
      intro acc hacc
      simpa using hacc
  | cons d t ih =>
      intro acc hacc
      apply ih
      cases hc : d.Code with
      | none => simpa [addRule, hc] using hacc
      | some code =>
          cases hex : acc.lookup code with
          | some v => simpa [addRule, hc, hex] using hacc
          | none =>
              have hmem : ∀ p ∈ acc, p.1 ≠ code :=
                (lookup_eq_none_iff acc code).mp hex
              rw [show addRule acc d = acc ++ [(code, mkSarifRule code d)]
                  from by simp [addRule, hc, hex],
                List.map_append, List.nodup_append]
              refine ⟨hacc, by simp, ?_⟩
              intro a ha hb
              simp only [List.map_cons, List.map_nil, List.mem_singleton] at hb
              subst hb
              obtain ⟨p, hp, hpa⟩ := List.mem_map.mp ha
              exact hmem p hp hpa

theorem sarifRules_map_id (ds : List Diagnostic) :
    (sarifRules ds).map (fun rule => rule.ID)
      = (buildRuleList ds).map Prod.fst := by
  rw [sarifRules, List.map_map]
  exact List.map_congr_left (fun p hp => buildRuleList_id_eq_key ds p hp)

theorem sarifRules_mem_iff (ds : List Diagnostic) (c : String) :
    c ∈ (sarifRules ds).map (fun rule => rule.ID)
      ↔ some c ∈ ds.map (fun d => d.Code) := by
  rw [sarifRules_map_id]
  constructor
  · intro hmem
    obtain ⟨p, hp, hpc⟩ := List.mem_map.mp hmem
    by_contra hno
    have hfind : ds.find? (fun d => d.Code == some c) = none := by
      rw [List.find?_eq_none]
      intro x hx hbeq
      rw [beq_iff_eq] at hbeq
      exact hno (List.mem_map.mpr ⟨x, hx, hbeq⟩)
    have hlk := buildRuleList_lookup ds c
    rw [hfind, Option.map_none'] at hlk
    exact (lookup_eq_none_iff _ c).mp hlk p hp hpc
  · intro hmem
    obtain ⟨x, hx, hxc⟩ := List.mem_map.mp hmem
    have hlk := buildRuleList_lookup ds c
    cases hfind : ds.find? (fun d => d.Code == some c) with
    | none =>
        rw [List.find?_eq_none] at hfind
        have hcontra := hfind x hx
        rw [hxc] at hcontra
        simp at hcontra
    | some d0 =>
        rw [hfind, Option.map_some'] at hlk
        exact List.mem_map.mpr ⟨(c, mkSarifRule c d0),
          mem_of_lookup_eq_some hlk, rfl⟩

/-- C9 (amended): the SARIF encoder emits one rule descriptor per distinct
code among diagnostics that carry a code — an empty-string code included —
keyed by that code with description text from the first-seen diagnostic
carrying it; it emits exactly one result entry per input diagnostic, in
input order, each referencing its diagnostic's code as ruleId when present;
in particular two diagnostics sharing code E001 yield one rule with id
E001 and two results referencing it. -/
theorem sarif_rules_results_amended (ds : List Diagnostic) :
    ((sarifRules ds).map (fun rule => rule.ID)).Nodup
  ∧ (∀ c : String, c ∈ (sarifRules ds).map (fun rule => rule.ID)
        ↔ some c ∈ ds.map (fun d => d.Code))
  ∧ (∀ c : String, (buildRuleList ds).lookup c
        = (ds.find? (fun d => d.Code == some c)).map (mkSarifRule c))
  ∧ (sarifResults ds).length = ds.length
  ∧ (∀ i : Nat, ((sarifResults ds).get? i).map (fun res => res.RuleID)
        = (ds.get? i).map (fun d => d.Code))
  ∧ (∀ i : Nat, ((sarifResults ds).get? i).map (fun res => res.Message.Text)
        = (ds.get? i).map (fun d => d.Message))
  ∧ (EmitSarif ds).Runs.map (fun run => (run.Tool.Driver.Rules, run.Results))
      = [(sarifRules ds, sarifResults ds)]
  ∧ (sarifRules [⟨Severity.Error, "invalid token", none, none, some "E001", none⟩,
      ⟨Severity.Error, "invalid token", none, none, some "E001", none⟩]).map
        (fun rule => rule.ID) = ["E001"]
  ∧ (sarifResults [⟨Severity.Error, "invalid token", none, none, some "E001", none⟩,
      ⟨Severity.Error, "invalid token", none, none, some "E001", none⟩]).map
        (fun res => res.RuleID) = [some "E001", some "E001"] := by
  refine ⟨?_, fun c => sarifRules_mem_iff ds c,
    fun c => buildRuleList_lookup ds c, ?_, ?_, ?_, rfl, by decide, by decide⟩
  · rw [sarifRules_map_id]
    exact buildRuleList_keys_nodup ds
  · simp [sarifResults]
  · intro i
    rw [sarifResults, List.get?_map]
    cases ds.get? i <;> rfl
  · intro i
    rw [sarifResults, List.get?_map]
    cases ds.get? i <;> rfl

theorem sarif_rules_results_amended_witness :
    "E001" ∈ (sarifRules
        [⟨Severity.Error, "invalid token", none, none, some "E001", none⟩,
         ⟨Severity.Error, "invalid token", none, none, some "E001", none⟩]).map
        (fun rule => rule.ID) :=
  ((sarif_rules_results_amended
      [⟨Severity.Error, "invalid token", none, none, some "E001", none⟩,
       ⟨Severity.Error, "invalid token", none, none, some "E001", none⟩]).2.1
    "E001").mpr (by decide)

/-- C9 (counterexample): a diagnostic carrying the empty-string code makes
the encoder emit a rule descriptor with id "" although the collection
contains no distinct non-empty code, so "one rule descriptor per distinct
non-empty code" fails on this input (one rule versus zero non-empty
codes). -/
theorem sarif_nonempty_code_counterexample :
    (sarifRules [⟨Severity.Error, "m", none, none, some "", none⟩]).map
        (fun rule => rule.ID) = [""]
  ∧ claimDistinctNonEmptyCodes
      [⟨Severity.Error, "m", none, none, some "", none⟩] = []
  ∧ (sarifRules [⟨Severity.Error, "m", none, none, some "", none⟩]).length
      = 1 := by
  refine ⟨by decide, by decide, by decide⟩
